import Mathlib

/-!
Verification of the jesofiantxt7 repository: a SQLite-backed test
authoring/taking pair (jeso.py, studjeso.py) and, per the specification,
a peer-to-peer encrypted chat subsystem.

The database layer is embedded from the Python source: each SQLite table
becomes a list of row structures, each CRUD function a pure state
transformer on a `DB` value.  AUTOINCREMENT primary keys are modelled by
explicit `next…Id` counters, `NULL`-able columns by `Option`, BLOBs by
`List Nat` byte lists.
-/

namespace JesoDB

/-- Row of the `questions` table (jeso.py, `create_db_if_not_exists`):
`id INTEGER PRIMARY KEY AUTOINCREMENT, test_id, qtext, opt1..opt6 (NULL-able),
correct_index`.  `opts` holds the six option columns in order. -/
structure QuestionRow where
  id : Nat
  test_id : Nat
  qtext : String
  opts : List (Option String)
  correct_index : Nat
deriving Repr, DecidableEq

/-- Row of the `tests` table. -/
structure TestRow where
  id : Nat
  title : String
  subject : String
  difficulty : String
deriving Repr, DecidableEq

/-- Row of the `results` table. -/
structure ResultRow where
  id : Nat
  test_id : Nat
  student_name : String
  score : Nat
  total : Nat
  taken_at : String
deriving Repr, DecidableEq

/-- Row of the `sketches` table; `sketch` is the NULL-able BLOB column. -/
structure SketchRow where
  id : Nat
  result_id : Nat
  student_name : String
  sketch : Option (List Nat)
  created_at : String
deriving Repr, DecidableEq

/-- Whole database state: the four tables created by
`create_db_if_not_exists` plus the AUTOINCREMENT counters. -/
structure DB where
  tests : List TestRow
  questions : List QuestionRow
  results : List ResultRow
  sketches : List SketchRow
  nextQuestionId : Nat
  nextResultId : Nat
  nextSketchId : Nat
deriving Repr, DecidableEq

/-- Insertion into a sorted list, used to model SQL `ORDER BY`. -/
def insertBy {α : Type} (le : α → α → Bool) (x : α) : List α → List α
  | [] => [x]
  | y :: ys => if le x y then x :: y :: ys else y :: insertBy le x ys

/-- Insertion sort by a Boolean comparison, used to model SQL `ORDER BY`. -/
def sortBy {α : Type} (le : α → α → Bool) (l : List α) : List α :=
  l.foldr (insertBy le) []

/-- jeso.py `insert_question(conn, test_id, qtext, options, correct_index)`:
pads `options` with `None` up to the six option columns and inserts one row;
the fresh AUTOINCREMENT id is `nextQuestionId`. -/
def insert_question (db : DB) (test_id : Nat) (qtext : String)
    (options : List String) (correct_index : Nat) : DB :=
  let opts := options.map some ++ List.replicate (6 - options.length) none
  { db with
    questions := db.questions ++
      [⟨db.nextQuestionId, test_id, qtext, opts, correct_index⟩]
    nextQuestionId := db.nextQuestionId + 1 }

/-- Drops the `NULL` option columns, as the Python list comprehension
`[row[i] for i in range(2, 8) if row[i] is not None]` does. -/
def stripNone (opts : List (Option String)) : List String :=
  opts.filterMap id

/-- jeso.py / studjeso.py `get_questions_for_test(conn, test_id)`:
`SELECT … WHERE test_id=? ORDER BY id`, then each row becomes
`(id, qtext, non-NULL options, correct_index)`. -/
def get_questions_for_test (db : DB) (test_id : Nat) :
    List (Nat × String × List String × Nat) :=
  (sortBy (fun a b => a.id ≤ b.id)
      (db.questions.filter (fun q => q.test_id == test_id))).map
    (fun q => (q.id, q.qtext, stripNone q.opts, q.correct_index))

/-- jeso.py `delete_test_and_questions(conn, test_id)`: `DELETE FROM
questions WHERE test_id=?` then `DELETE FROM tests WHERE id=?`; the
`results` and `sketches` tables are not touched. -/
def delete_test_and_questions (db : DB) (test_id : Nat) : DB :=
  { db with
    questions := db.questions.filter (fun q => !(q.test_id == test_id))
    tests := db.tests.filter (fun t => !(t.id == test_id)) }

/-- jeso.py `get_results_for_test(conn, test_id)`: `SELECT student_name,
score, total, taken_at FROM results WHERE test_id=? ORDER BY taken_at
DESC`. -/
def get_results_for_test (db : DB) (test_id : Nat) :
    List (String × Nat × Nat × String) :=
  (sortBy (fun a b => !decide (a.taken_at < b.taken_at))
      (db.results.filter (fun r => r.test_id == test_id))).map
    (fun r => (r.student_name, r.score, r.total, r.taken_at))

/-- Python `str.encode()` for the ASCII strings this code stores
(UTF-8 of an ASCII string is its code-point sequence). -/
def pyEncode (s : String) : List Nat :=
  s.data.map Char.toNat

/-- PIL image, modelled at its interface boundary (the spec scopes PIL
out as an external collaborator): the app only serialises images via
`save(…, format="PNG")`, so an image is its PNG byte serialisation. -/
structure PILImage where
  pngBytes : List Nat
deriving Repr, DecidableEq

/-- Argument of studjeso.py `save_result_and_sketch`: either a PIL image
or the literal Python string `"NO_SKETCH"` (see `submit_answers`). -/
inductive SketchInput where
  | noSketch : SketchInput
  | image : PILImage → SketchInput
deriving Repr, DecidableEq

/-- Leading bytes of a PNG file. -/
def pngMagic : List Nat := [137, 80, 78, 71, 13, 10, 26, 10]

/-- PIL `Image.open`, modelled at its interface boundary: it succeeds
exactly on blobs carrying a supported image signature (the app writes
only PNG) and raises `UnidentifiedImageError` otherwise. -/
def imageOpen (bytes : List Nat) : Except String PILImage :=
  if pngMagic.isPrefixOf bytes then .ok ⟨bytes⟩
  else .error "UnidentifiedImageError"

/-- studjeso.py `save_result_and_sketch(conn, test_id, student_name,
score, total, sketch_img)`: inserts one `results` row, then one
`sketches` row whose BLOB is `sketch_img.encode()` when `sketch_img`
is the string `"NO_SKETCH"`, and the PNG serialisation of the image
otherwise.  `now` stands for `datetime.utcnow().isoformat()`. -/
def save_result_and_sketch (db : DB) (test_id : Nat) (student_name : String)
    (score total : Nat) (sketch_img : SketchInput) (now : String) : DB :=
  let result_id := db.nextResultId
  let blob : List Nat :=
    match sketch_img with
    | .noSketch => pyEncode "NO_SKETCH"
    | .image img => img.pngBytes
  { db with
    results := db.results ++
      [⟨result_id, test_id, student_name, score, total, now⟩]
    nextResultId := result_id + 1
    sketches := db.sketches ++
      [⟨db.nextSketchId, result_id, student_name, some blob, now⟩]
    nextSketchId := db.nextSketchId + 1 }

/-- jeso.py `get_sketch_for_result(conn, result_id)`: fetches the first
`sketches` row for the result; when the row exists and its BLOB is
truthy (non-NULL and non-empty) it returns `Image.open(BytesIO(blob))`
— which may raise — and otherwise returns `None`.  `Except.error`
models the raised exception, `Except.ok none` the Python `None`. -/
def get_sketch_for_result (db : DB) (result_id : Nat) :
    Except String (Option PILImage) :=
  match (db.sketches.filter (fun s => s.result_id == result_id)).head? with
  | none => .ok none
  | some row =>
    match row.sketch with
    | none => .ok none
    | some b => if b.isEmpty then .ok none else (imageOpen b).map some

/-- Inserting an element that compares below `y` into a list ending in `y`
keeps `y` last. -/
theorem insertBy_append_big {α : Type} (le : α → α → Bool) (x y : α)
    (l : List α) (h : le x y = true) :
    insertBy le x (l ++ [y]) = insertBy le x l ++ [y] := by
  induction l with
  | nil => simp [insertBy, h]
  | cons z zs ih =>
    simp only [List.cons_append, insertBy]
    cases hz : le x z with
    | true => simp
    | false => simp [ih]

/-- Sorting a list whose last element compares above all others keeps
that element last. -/
theorem sortBy_append_big {α : Type} (le : α → α → Bool) (y : α) (l : List α)
    (h : ∀ x ∈ l, le x y = true) :
    sortBy le (l ++ [y]) = sortBy le l ++ [y] := by
  induction l with
  | nil => simp [sortBy, insertBy]
  | cons z zs ih =>
    have hz : le z y = true := h z (List.mem_cons_self _ _)
    have hzs : ∀ x ∈ zs, le x y = true :=
      fun x hx => h x (List.mem_cons_of_mem _ hx)
    simp only [List.cons_append, sortBy, List.foldr_cons] at *
    rw [ih hzs]
    exact insertBy_append_big le z y _ hz

/-- Stripping the `NULL` padding recovers the inserted option list. -/
theorem stripNone_pad (l : List String) (n : Nat) :
    stripNone (l.map some ++ List.replicate n none) = l := by
  simp [stripNone, List.filterMap_append, List.filterMap_map,
    List.filterMap_replicate]

/-- C8: after `insert_question`, `get_questions_for_test` on the same
test id returns the previous rows followed by the new one; its last
element carries the inserted option list (trailing `NULL` padding
stripped) and the inserted correct index. -/
theorem insert_question_get_questions_roundtrip
    (db : DB) (test_id : Nat) (qtext : String) (options : List String)
    (correct_index : Nat)
    (hids : ∀ q ∈ db.questions, q.id < db.nextQuestionId)
    (_hq : qtext ≠ "") (_hlen1 : 1 ≤ options.length)
    (_hlen6 : options.length ≤ 6) (_hopts : ∀ o ∈ options, o ≠ "") :
    get_questions_for_test
        (insert_question db test_id qtext options correct_index) test_id
      = get_questions_for_test db test_id ++
        [(db.nextQuestionId, qtext, options, correct_index)] ∧
    (get_questions_for_test
        (insert_question db test_id qtext options correct_index)
        test_id).getLast?
      = some (db.nextQuestionId, qtext, options, correct_index) := by
  have hmain :
      get_questions_for_test
          (insert_question db test_id qtext options correct_index) test_id
        = get_questions_for_test db test_id ++
          [(db.nextQuestionId, qtext, options, correct_index)] := by
    unfold get_questions_for_test insert_question
    simp only [List.filter_append]
    have hnew :
        List.filter (fun q => q.test_id == test_id)
            [(⟨db.nextQuestionId, test_id, qtext,
              options.map some ++ List.replicate (6 - options.length) none,
              correct_index⟩ : QuestionRow)]
          = [⟨db.nextQuestionId, test_id, qtext,
              options.map some ++ List.replicate (6 - options.length) none,
              correct_index⟩] := by
      simp
    rw [hnew, sortBy_append_big]
    · rw [List.map_append]
      simp [stripNone_pad]
    · intro x hx
      have hxm := (List.mem_filter.mp hx).1
      have := hids x hxm
      simp only [decide_eq_true_eq]
      omega
  refine ⟨hmain, ?_⟩
  rw [hmain]
  exact List.getLast?_concat _

/-- C9: `delete_test_and_questions` removes the test row and every
question row of that test, leaves `results` and `sketches` untouched,
keeps unrelated questions, and `get_results_for_test` on the deleted
test id still returns what it returned before. -/
theorem delete_test_and_questions_frame (db : DB) (tid : Nat) :
    (delete_test_and_questions db tid).results = db.results ∧
    (delete_test_and_questions db tid).sketches = db.sketches ∧
    (∀ q ∈ (delete_test_and_questions db tid).questions, q.test_id ≠ tid) ∧
    (∀ t ∈ (delete_test_and_questions db tid).tests, t.id ≠ tid) ∧
    (∀ q ∈ db.questions, q.test_id ≠ tid →
      q ∈ (delete_test_and_questions db tid).questions) ∧
    get_results_for_test (delete_test_and_questions db tid) tid
      = get_results_for_test db tid := by
  refine ⟨rfl, rfl, ?_, ?_, ?_, rfl⟩
  · intro q hq
    have := (List.mem_filter.mp hq).2
    simpa using this
  · intro t ht
    have := (List.mem_filter.mp ht).2
    simpa using this
  · intro q hq hne
    exact List.mem_filter.mpr ⟨hq, by simpa using hne⟩

/-- C10: `save_result_and_sketch` always appends exactly one `sketches`
row with a non-NULL BLOB; with no sketch image the BLOB is the UTF-8
bytes of `"NO_SKETCH"`, and `get_sketch_for_result` on that result does
not return `None` but hands those bytes to `Image.open`, which raises. -/
theorem save_no_sketch_get_sketch_raises (db : DB) (test_id : Nat)
    (name : String) (score total : Nat) (now : String)
    (hres : ∀ s ∈ db.sketches, s.result_id < db.nextResultId) :
    (∀ inp : SketchInput, ∃ row : SketchRow,
        (save_result_and_sketch db test_id name score total inp now).sketches
          = db.sketches ++ [row] ∧ row.sketch.isSome = true) ∧
    (∃ row : SketchRow,
        (save_result_and_sketch db test_id name score total
            SketchInput.noSketch now).sketches
          = db.sketches ++ [row] ∧
        row.sketch = some (pyEncode "NO_SKETCH") ∧
        row.result_id = db.nextResultId) ∧
    get_sketch_for_result
        (save_result_and_sketch db test_id name score total
          SketchInput.noSketch now)
        db.nextResultId
      = .error "UnidentifiedImageError" := by
  have hfilter :
      List.filter (fun s => s.result_id == db.nextResultId) db.sketches
        = [] := by
    rw [List.filter_eq_nil_iff]
    intro s hs
    have := hres s hs
    simp only [beq_iff_eq]
    omega
  refine ⟨?_, ?_, ?_⟩
  · intro inp
    cases inp with
    | noSketch =>
      exact ⟨_, rfl, rfl⟩
    | image img =>
      exact ⟨_, rfl, rfl⟩
  · exact ⟨_, rfl, rfl, rfl⟩
  · unfold get_sketch_for_result save_result_and_sketch
    simp only [List.filter_append, hfilter, List.nil_append]
    rw [show List.filter (fun s => s.result_id == db.nextResultId)
        [(⟨db.nextSketchId, db.nextResultId, name,
          some (pyEncode "NO_SKETCH"), now⟩ : SketchRow)]
      = [⟨db.nextSketchId, db.nextResultId, name,
          some (pyEncode "NO_SKETCH"), now⟩] from by simp]
    rfl

/-- Concrete database used to instantiate the hypotheses of the
theorems above: one test, one question, one result, one sketch. -/
def dbEx : DB where
  tests := [⟨1, "t", "s", "easy"⟩]
  questions := [⟨1, 1, "q", [some "a", none, none, none, none, none], 0⟩]
  results := [⟨1, 1, "alice", 1, 1, "2024-01-01T00:00:00"⟩]
  sketches := [⟨1, 1, "alice", some (pyEncode "NO_SKETCH"),
    "2024-01-01T00:00:00"⟩]
  nextQuestionId := 2
  nextResultId := 2
  nextSketchId := 2

/-- Witness for C8 at a concrete database and question. -/
theorem insert_question_get_questions_roundtrip_witness :
    get_questions_for_test (insert_question dbEx 1 "q2" ["x", "y"] 1) 1
      = get_questions_for_test dbEx 1 ++ [(2, "q2", ["x", "y"], 1)] ∧
    (get_questions_for_test (insert_question dbEx 1 "q2" ["x", "y"] 1)
        1).getLast?
      = some (2, "q2", ["x", "y"], 1) :=
  insert_question_get_questions_roundtrip dbEx 1 "q2" ["x", "y"] 1
    (by decide) (by decide) (by decide) (by decide) (by decide)

/-- Witness for C9 at a concrete database. -/
theorem delete_test_and_questions_frame_witness :
    (delete_test_and_questions dbEx 1).results = dbEx.results ∧
    (delete_test_and_questions dbEx 1).sketches = dbEx.sketches ∧
    (∀ q ∈ (delete_test_and_questions dbEx 1).questions, q.test_id ≠ 1) ∧
    (∀ t ∈ (delete_test_and_questions dbEx 1).tests, t.id ≠ 1) ∧
    (∀ q ∈ dbEx.questions, q.test_id ≠ 1 →
      q ∈ (delete_test_and_questions dbEx 1).questions) ∧
    get_results_for_test (delete_test_and_questions dbEx 1) 1
      = get_results_for_test dbEx 1 :=
  delete_test_and_questions_frame dbEx 1

/-- Witness for C10 at a concrete database. -/
theorem save_no_sketch_get_sketch_raises_witness :
    (∀ inp : SketchInput, ∃ row : SketchRow,
        (save_result_and_sketch dbEx 1 "bob" 0 1 inp "2024").sketches
          = dbEx.sketches ++ [row] ∧ row.sketch.isSome = true) ∧
    (∃ row : SketchRow,
        (save_result_and_sketch dbEx 1 "bob" 0 1
            SketchInput.noSketch "2024").sketches
          = dbEx.sketches ++ [row] ∧
        row.sketch = some (pyEncode "NO_SKETCH") ∧
        row.result_id = 2) ∧
    get_sketch_for_result
        (save_result_and_sketch dbEx 1 "bob" 0 1 SketchInput.noSketch "2024")
        2
      = .error "UnidentifiedImageError" :=
  save_no_sketch_get_sketch_raises dbEx 1 "bob" 0 1 "2024" (by decide)

end JesoDB

namespace Chat

/-!
The peer-to-peer encrypted chat subsystem.  The specification names it
as the core of the repository, but its source is not under `src/`
(only the test-app files and a build script are), so every definition
in this namespace is modelled from the specification's contracts
(§3–§7) rather than translated from Python source.
-/

/-- Modelled from the spec: error result of `Cipher.decrypt` (§4.2, §7);
the chat's Cipher source is not in `src/`. -/
inductive CipherError where
  | AuthenticationFailed : CipherError
deriving Repr, DecidableEq

/-- Modelled from the spec: one byte of the AEAD keystream for a given
key, nonce value and byte position.  The spec prescribes AES-256-GCM
"or equivalent AEAD"; the block cipher itself is outside the spec's
text, so an explicit keyed stream stands in for it, keeping the
interface (key, nonce, per-position byte) of §4.2. -/
def keystreamByte (key nv i : Nat) : Nat :=
  (key + nv + i * 131) % 256

/-- Value of a nonce read as a big-endian byte string. -/
def nonceVal (nonce : List Nat) : Nat :=
  nonce.foldl (fun a b => a * 256 + b) 0

/-- Byte-wise stream encryption from position `i`. -/
def encBytes (key nv : Nat) : Nat → List Nat → List Nat
  | _, [] => []
  | i, b :: bs => (b + keystreamByte key nv i) % 256 :: encBytes key nv (i + 1) bs

/-- Byte-wise stream decryption from position `i`. -/
def decBytes (key nv : Nat) : Nat → List Nat → List Nat
  | _, [] => []
  | i, b :: bs =>
    (b + 256 - keystreamByte key nv i) % 256 :: decBytes key nv (i + 1) bs

/-- Modelled from the spec: the 16-byte authentication tag over the
ciphertext, keyed by key and nonce (§4.2: `ciphertext‖tag`). -/
def tagOf (key nv : Nat) (ct : List Nat) : Nat :=
  ct.foldl (fun a b => (a * 257 + b + 1) % 65213) (key % 65213 + nv % 65213)

/-- The tag serialised as 16 bytes. -/
def tagBytes (key nv : Nat) (ct : List Nat) : List Nat :=
  (List.range 16).map (fun i => (tagOf key nv ct + i * 31) % 256)

/-- Modelled from the spec: `Cipher.encrypt(key, plaintext) -> Frame`
(§4.2) returns `nonce ‖ ciphertext ‖ tag`.  The fresh 96-bit random
nonce the spec draws is passed as the `nonce` argument: randomness is
modelled by quantifying over it. -/
def encrypt (key : Nat) (nonce : List Nat) (m : List Nat) : List Nat :=
  let ct := encBytes key (nonceVal nonce) 0 m
  nonce ++ ct ++ tagBytes key (nonceVal nonce) ct

/-- Modelled from the spec: `Cipher.decrypt(key, frame)` (§4.2) splits
the first 96 bits as nonce, verifies the tag over the remainder and
fails closed with `AuthenticationFailed` on any mismatch or malformed
frame. -/
def decrypt (key : Nat) (frame : List Nat) : Except CipherError (List Nat) :=
  if frame.length < 28 then .error .AuthenticationFailed
  else if (frame.drop 12).drop ((frame.drop 12).length - 16)
      = tagBytes key (nonceVal (frame.take 12))
          ((frame.drop 12).take ((frame.drop 12).length - 16)) then
    .ok (decBytes key (nonceVal (frame.take 12)) 0
      ((frame.drop 12).take ((frame.drop 12).length - 16)))
  else .error .AuthenticationFailed

/-- The tag of a frame verifies under a key: the frame is long enough
to carry nonce and tag, and its trailing 16 bytes equal the tag of its
ciphertext under the frame's nonce. -/
def tagVerifies (key : Nat) (frame : List Nat) : Prop :=
  28 ≤ frame.length ∧
  (frame.drop 12).drop ((frame.drop 12).length - 16)
    = tagBytes key (nonceVal (frame.take 12))
        ((frame.drop 12).take ((frame.drop 12).length - 16))

instance (key : Nat) (frame : List Nat) : Decidable (tagVerifies key frame) :=
  inferInstanceAs (Decidable (_ ∧ _))

/-- Modelled from the spec: error result of `validate_port` (§4.1). -/
inductive PortError where
  | NotNumeric : PortError
  | OutOfRange : PortError
deriving Repr, DecidableEq

/-- Reading a string as a base-10 natural number: all characters are
decimal digits and there is at least one. -/
def parseBase10 (s : String) : Option Nat :=
  if s.data ≠ [] ∧ s.data.all Char.isDigit then
    some (s.data.foldl (fun a c => a * 10 + (c.toNat - 48)) 0)
  else none

/-- Modelled from the spec: `AddressValidator.validate_port` (§4.1),
a pure function with no socket side effects: a base-10 integer in
`[1024, 65535]` is accepted, non-numeric input and out-of-range values
are rejected. -/
def validate_port (s : String) : Except PortError Nat :=
  match parseBase10 s with
  | none => .error .NotNumeric
  | some n => if 1024 ≤ n ∧ n ≤ 65535 then .ok n else .error .OutOfRange

/-- Modelled from the spec: connection mode (§3, `ConnectionConfig`). -/
inductive Mode where
  | LAN : Mode
  | SERVER : Mode
deriving Repr, DecidableEq

/-- Modelled from the spec: local role (§3). -/
inductive Role where
  | Listener : Role
  | Connector : Role
deriving Repr, DecidableEq

/-- Modelled from the spec: `ConnectionConfig` (§3). -/
structure ConnectionConfig where
  mode : Mode
  role : Role
  host : String
  port : Nat
deriving Repr, DecidableEq

/-- Modelled from the spec: error result of `establish` (§4.3). -/
inductive ConnError where
  | BindFailed : ConnError
  | ConnectFailed : ConnError
  | InvalidConfig : ConnError
deriving Repr, DecidableEq

/-- Network operation attempted by `establish`, recorded in order so
the retry behaviour of §4.3/§7 is observable. -/
inductive NetAction where
  | ConnectTo : String → Nat → NetAction
  | BindListen : Nat → NetAction
deriving Repr, DecidableEq

/-- Established stream endpoint, tagged by how it was obtained. -/
inductive Stream where
  | connectorStream : String → Nat → Stream
  | listenerStream : Nat → Stream
deriving Repr, DecidableEq

/-- Environment oracle: whether a connect to `host:port` succeeds and
whether a bind on `port` succeeds, abstracting the network. -/
structure NetEnv where
  connectOk : String → Nat → Bool
  bindOk : Nat → Bool

/-- Modelled from the spec: `ConnectionEstablisher.establish` (§4.3).
SERVER/Listener binds and accepts; SERVER/Connector connects and
surfaces `ConnectFailed` without retry; LAN tries Connector first and
on any connect failure falls back to binding as Listener on the same
port.  The second component records the attempted operations in
order. -/
def establish (env : NetEnv) (cfg : ConnectionConfig) :
    Except ConnError Stream × List NetAction :=
  match cfg.mode, cfg.role with
  | .SERVER, .Listener =>
    if env.bindOk cfg.port then
      (.ok (.listenerStream cfg.port), [.BindListen cfg.port])
    else (.error .BindFailed, [.BindListen cfg.port])
  | .SERVER, .Connector =>
    if env.connectOk cfg.host cfg.port then
      (.ok (.connectorStream cfg.host cfg.port), [.ConnectTo cfg.host cfg.port])
    else (.error .ConnectFailed, [.ConnectTo cfg.host cfg.port])
  | .LAN, _ =>
    if env.connectOk cfg.host cfg.port then
      (.ok (.connectorStream cfg.host cfg.port), [.ConnectTo cfg.host cfg.port])
    else if env.bindOk cfg.port then
      (.ok (.listenerStream cfg.port),
        [.ConnectTo cfg.host cfg.port, .BindListen cfg.port])
    else
      (.error .BindFailed,
        [.ConnectTo cfg.host cfg.port, .BindListen cfg.port])

/-- Big-endian 4-byte encoding of a length (§6 wire format). -/
def be32 (n : Nat) : List Nat :=
  [n / 16777216 % 256, n / 65536 % 256, n / 256 % 256, n % 256]

/-- Modelled from the spec: the per-message wire bytes (§6): a 4-byte
big-endian length counting the following bytes, then the frame
(`nonce ‖ ciphertext+tag`). -/
def encodeMessage (frame : List Nat) : List Nat :=
  be32 frame.length ++ frame

/-- Modelled from the spec: `Session.send` (§4.4) encrypts the
plaintext and writes the length-prefixed frame to the stream. -/
def sessionSend (key : Nat) (nonce m : List Nat) : List Nat :=
  encodeMessage (encrypt key nonce m)

/-- Modelled from the spec: the framed read (§4.3 caveat, §6): read the
4-byte big-endian length, then exactly that many bytes as one frame;
`none` on end-of-stream or a short read. -/
def readMessage (stream : List Nat) : Option (List Nat × List Nat) :=
  match stream with
  | b0 :: b1 :: b2 :: b3 :: rest =>
    if ((b0 * 256 + b1) * 256 + b2) * 256 + b3 ≤ rest.length then
      some (rest.take (((b0 * 256 + b1) * 256 + b2) * 256 + b3),
        rest.drop (((b0 * 256 + b1) * 256 + b2) * 256 + b3))
    else none
  | _ => none

/-- Modelled from the spec: classified exit reason of the receive
worker (§4.5, §7): an ordinary end-of-stream or I/O error is reported
as `PeerDisconnected`, an AEAD failure distinctly as
`AuthenticationFailed`. -/
inductive ExitReason where
  | PeerDisconnected : ExitReason
  | AuthenticationFailed : ExitReason
deriving Repr, DecidableEq

/-- When a framed read succeeds, at least the four length bytes were
consumed from the stream. -/
theorem readMessage_rest_shorter (s f r : List Nat)
    (h : readMessage s = some (f, r)) : r.length + 4 ≤ s.length := by
  match s with
  | [] => simp [readMessage] at h
  | [_] => simp [readMessage] at h
  | [_, _] => simp [readMessage] at h
  | [_, _, _] => simp [readMessage] at h
  | b0 :: b1 :: b2 :: b3 :: rest =>
    simp only [readMessage] at h
    split at h
    · cases h
      simp only [List.length_cons, List.length_drop]
      omega
    · exact absurd h (by simp)

/-- Modelled from the spec: `ReceiveLoop` (§4.5): repeatedly read one
framed message, decrypt it, deliver the plaintext; end-of-stream or a
short read exits with `PeerDisconnected`, an AEAD failure exits with
`AuthenticationFailed`; frames are processed strictly sequentially. -/
def receiveLoop (key : Nat) (stream : List Nat) :
    List (List Nat) × ExitReason :=
  match h : readMessage stream with
  | none => ([], .PeerDisconnected)
  | some (frame, rest) =>
    match decrypt key frame with
    | .error _ => ([], .AuthenticationFailed)
    | .ok m =>
      let p := receiveLoop key rest
      (m :: p.1, p.2)
termination_by stream.length
decreasing_by
  have := readMessage_rest_shorter stream frame rest h
  omega

/-- One endpoint sending a sequence of messages, each under its own
fresh nonce: the concatenation of the framed wire bytes (§5/§6). -/
def sendAll (key : Nat) : List (List Nat × List Nat) → List Nat
  | [] => []
  | (n, m) :: rest => encodeMessage (encrypt key n m) ++ sendAll key rest

/-- The keystream byte is a byte. -/
theorem keystreamByte_lt (key nv i : Nat) : keystreamByte key nv i < 256 :=
  Nat.mod_lt _ (by omega)

/-- Byte-wise decryption inverts byte-wise encryption on byte-valued
plaintexts, from any starting position. -/
theorem decBytes_encBytes (key nv : Nat) (m : List Nat) (i : Nat)
    (hm : ∀ b ∈ m, b < 256) :
    decBytes key nv i (encBytes key nv i m) = m := by
  induction m generalizing i with
  | nil => rfl
  | cons b bs ih =>
    have hb : b < 256 := hm b (List.mem_cons_self _ _)
    have hk : keystreamByte key nv i < 256 := keystreamByte_lt key nv i
    simp only [encBytes, decBytes, List.cons.injEq]
    exact ⟨by omega, ih (i + 1) (fun x hx => hm x (List.mem_cons_of_mem _ hx))⟩

/-- Stream encryption preserves length. -/
theorem encBytes_length (key nv : Nat) (m : List Nat) (i : Nat) :
    (encBytes key nv i m).length = m.length := by
  induction m generalizing i with
  | nil => rfl
  | cons b bs ih => simp [encBytes, ih]

/-- The tag is 16 bytes. -/
theorem tagBytes_length (key nv : Nat) (ct : List Nat) :
    (tagBytes key nv ct).length = 16 := by
  simp [tagBytes]

/-- A frame is 28 bytes longer than its plaintext. -/
theorem encrypt_length (key : Nat) (nonce m : List Nat)
    (hn : nonce.length = 12) :
    (encrypt key nonce m).length = m.length + 28 := by
  simp [encrypt, encBytes_length, tagBytes_length, hn]
  omega

/-- Round trip of the modelled AEAD: decrypting a well-formed frame
recovers the plaintext. -/
theorem decrypt_encrypt (key : Nat) (nonce m : List Nat)
    (hn : nonce.length = 12) (hm : ∀ b ∈ m, b < 256) :
    decrypt key (encrypt key nonce m) = .ok m := by
  have hct : (encBytes key (nonceVal nonce) 0 m).length = m.length :=
    encBytes_length key (nonceVal nonce) m 0
  have htag : (tagBytes key (nonceVal nonce)
      (encBytes key (nonceVal nonce) 0 m)).length = 16 :=
    tagBytes_length _ _ _
  have hlen : (encrypt key nonce m).length = m.length + 28 :=
    encrypt_length key nonce m hn
  unfold decrypt
  rw [if_neg (by omega)]
  unfold encrypt
  rw [List.append_assoc]
  rw [List.take_left' hn, List.drop_left' hn]
  have hblen : ((encBytes key (nonceVal nonce) 0 m) ++
      tagBytes key (nonceVal nonce) (encBytes key (nonceVal nonce) 0 m)).length
        - 16 = (encBytes key (nonceVal nonce) 0 m).length := by
    rw [List.length_append, hct, htag]
    omega
  rw [hblen, List.take_left, List.drop_left]
  rw [if_pos rfl]
  rw [decBytes_encBytes key (nonceVal nonce) m 0 hm]

/-- C1: for every 256-bit session key and every valid plaintext (a byte
string), decrypting the frame produced by encrypting it under that key
and a fresh 96-bit nonce returns exactly the plaintext. -/
theorem decrypt_encrypt_roundtrip (key : Nat) (nonce m : List Nat)
    (_hkey : key < 2 ^ 256) (hn : nonce.length = 12)
    (hm : ∀ b ∈ m, b < 256) :
    decrypt key (encrypt key nonce m) = .ok m :=
  decrypt_encrypt key nonce m hn hm

/-- Witness for C1 at a concrete key, nonce and plaintext. -/
theorem decrypt_encrypt_roundtrip_witness :
    decrypt 3 (encrypt 3 (List.replicate 12 0) [104, 105]) = .ok [104, 105] :=
  decrypt_encrypt_roundtrip 3 (List.replicate 12 0) [104, 105]
    (by norm_num) (by decide) (by decide)

/-- C2: for every key and every frame whose tag does not verify under
that key, `decrypt` fails closed with `AuthenticationFailed` and never
returns a plaintext, whole or otherwise. -/
theorem decrypt_fails_closed (key : Nat) (frame : List Nat)
    (h : ¬ tagVerifies key frame) :
    decrypt key frame = .error .AuthenticationFailed ∧
    ∀ m, decrypt key frame ≠ .ok m := by
  have herr : decrypt key frame = .error .AuthenticationFailed := by
    unfold decrypt
    by_cases hlen : frame.length < 28
    · rw [if_pos hlen]
    · rw [if_neg hlen, if_neg ?_]
      intro heq
      exact h ⟨by omega, heq⟩
  exact ⟨herr, fun m hm => by rw [herr] at hm; exact Except.noConfusion hm⟩

/-- Witness for C2 at a concrete corrupted frame. -/
theorem decrypt_fails_closed_witness :
    decrypt 1 (List.replicate 28 0) = .error .AuthenticationFailed ∧
    ∀ m, decrypt 1 (List.replicate 28 0) ≠ .ok m :=
  decrypt_fails_closed 1 (List.replicate 28 0) (by decide)

/-- C3: `validate_port` accepts a string exactly when it reads as a
base-10 integer in `[1024, 65535]`; the spec's boundary examples
behave as stated.  Being a pure function, it performs no socket call. -/
theorem validate_port_spec :
    (∀ s n, validate_port s = .ok n ↔
      (parseBase10 s = some n ∧ 1024 ≤ n ∧ n ≤ 65535)) ∧
    validate_port "1023" = .error .OutOfRange ∧
    validate_port "1024" = .ok 1024 ∧
    validate_port "65535" = .ok 65535 ∧
    validate_port "65536" = .error .OutOfRange ∧
    validate_port "abc" = .error .NotNumeric := by
  refine ⟨?_, by rfl, by rfl, by rfl, by rfl, by rfl⟩
  intro s n
  unfold validate_port
  cases hp : parseBase10 s with
  | none =>
    dsimp only
    constructor
    · intro he
      exact Except.noConfusion he
    · rintro ⟨he, _⟩
      exact Option.noConfusion he
  | some k =>
    dsimp only
    by_cases hr : 1024 ≤ k ∧ k ≤ 65535
    · rw [if_pos hr]
      constructor
      · intro he
        have hk : k = n := by
          injection he
        subst hk
        exact ⟨rfl, hr.1, hr.2⟩
      · rintro ⟨he, _, _⟩
        injection he with he
        rw [he]
    · rw [if_neg hr]
      constructor
      · intro he
        exact Except.noConfusion he
      · rintro ⟨he, h1, h2⟩
        injection he with he
        exact absurd (he ▸ ⟨h1, h2⟩) hr

/-- Witness for C3 at a concrete in-range port. -/
theorem validate_port_spec_witness : validate_port "2048" = .ok 2048 :=
  (validate_port_spec.1 "2048" 2048).mpr ⟨by decide, by decide, by decide⟩

/-- C4: in LAN mode `establish` tries the Connector first; on any
connect failure it falls back to binding as Listener on the same port,
and that is the only retry (two attempted operations at most); a
SERVER-mode Connector failure is surfaced as `ConnectFailed` with no
second operation attempted. -/
theorem establish_lan_fallback (env : NetEnv) (cfg : ConnectionConfig) :
    (cfg.mode = .LAN →
      (establish env cfg).2.head? = some (.ConnectTo cfg.host cfg.port)) ∧
    (cfg.mode = .LAN → env.connectOk cfg.host cfg.port = true →
      establish env cfg
        = (.ok (.connectorStream cfg.host cfg.port),
            [.ConnectTo cfg.host cfg.port])) ∧
    (cfg.mode = .LAN → env.connectOk cfg.host cfg.port = false →
      env.bindOk cfg.port = true →
      establish env cfg
        = (.ok (.listenerStream cfg.port),
            [.ConnectTo cfg.host cfg.port, .BindListen cfg.port])) ∧
    (cfg.mode = .LAN → env.connectOk cfg.host cfg.port = false →
      env.bindOk cfg.port = false →
      establish env cfg
        = (.error .BindFailed,
            [.ConnectTo cfg.host cfg.port, .BindListen cfg.port])) ∧
    (cfg.mode = .SERVER → cfg.role = .Connector →
      env.connectOk cfg.host cfg.port = false →
      establish env cfg
        = (.error .ConnectFailed, [.ConnectTo cfg.host cfg.port])) := by
  obtain ⟨mode, role, host, port⟩ := cfg
  refine ⟨?_, ?_, ?_, ?_, ?_⟩
  · rintro rfl
    cases hc : env.connectOk host port with
    | true => simp [establish, hc]
    | false =>
      cases hb : env.bindOk port with
      | true => simp [establish, hc, hb]
      | false => simp [establish, hc, hb]
  · rintro rfl hc
    simp [establish, hc]
  · rintro rfl hc hb
    simp [establish, hc, hb]
  · rintro rfl hc hb
    simp [establish, hc, hb]
  · rintro rfl hrole hc
    simp only at hrole
    subst hrole
    simp [establish, hc]

/-- Network oracle used by the C4 witness: every connect attempt is
refused, every bind succeeds. -/
def envNoPeer : NetEnv where
  connectOk := fun _ _ => false
  bindOk := fun _ => true

/-- Witness for C4: with no listening peer, a LAN-mode endpoint falls
back to listening on its own port. -/
theorem establish_lan_fallback_witness :
    establish envNoPeer ⟨.LAN, .Connector, "192.168.0.2", 5000⟩
      = (.ok (.listenerStream 5000),
          [.ConnectTo "192.168.0.2" 5000, .BindListen 5000]) :=
  (establish_lan_fallback envNoPeer
      ⟨.LAN, .Connector, "192.168.0.2", 5000⟩).2.2.1 rfl rfl rfl

/-- Reading back a length-prefixed message recovers exactly the frame
and leaves the rest of the stream. -/
theorem readMessage_encodeMessage (frame rest : List Nat)
    (h : frame.length < 4294967296) :
    readMessage (encodeMessage frame ++ rest) = some (frame, rest) := by
  have hv : ((frame.length / 16777216 % 256 * 256
        + frame.length / 65536 % 256) * 256
        + frame.length / 256 % 256) * 256 + frame.length % 256
      = frame.length := by
    omega
  simp only [encodeMessage, be32, List.cons_append, List.nil_append,
    readMessage, hv]
  rw [if_pos (by simp)]
  rw [List.take_left, List.drop_left]

/-- C5: `Session.send` writes a 4-byte big-endian length prefix
counting the following bytes, then the frame — 12-byte nonce followed
by ciphertext-with-tag — and the framed reader reconstructs exactly
that frame from exactly that many bytes, leaving the rest of the
stream untouched. -/
theorem session_wire_format (key : Nat) (nonce m rest : List Nat)
    (hn : nonce.length = 12) (hlen : m.length + 28 < 4294967296) :
    sessionSend key nonce m
      = be32 (encrypt key nonce m).length ++ encrypt key nonce m ∧
    (be32 (encrypt key nonce m).length).length = 4 ∧
    (encrypt key nonce m).length = m.length + 28 ∧
    (encrypt key nonce m).take 12 = nonce ∧
    readMessage (sessionSend key nonce m ++ rest)
      = some (encrypt key nonce m, rest) := by
  have he : (encrypt key nonce m).length = m.length + 28 :=
    encrypt_length key nonce m hn
  refine ⟨rfl, rfl, he, ?_, ?_⟩
  · unfold encrypt
    rw [List.append_assoc]
    exact List.take_left' hn
  · exact readMessage_encodeMessage _ _ (by omega)

/-- Witness for C5 at a concrete key, nonce, message and residual
stream. -/
theorem session_wire_format_witness :
    sessionSend 7 (List.replicate 12 1) [42]
      = be32 (encrypt 7 (List.replicate 12 1) [42]).length ++
          encrypt 7 (List.replicate 12 1) [42] ∧
    (be32 (encrypt 7 (List.replicate 12 1) [42]).length).length = 4 ∧
    (encrypt 7 (List.replicate 12 1) [42]).length = 29 ∧
    (encrypt 7 (List.replicate 12 1) [42]).take 12 = List.replicate 12 1 ∧
    readMessage (sessionSend 7 (List.replicate 12 1) [42] ++ [9, 9])
      = some (encrypt 7 (List.replicate 12 1) [42], [9, 9]) :=
  session_wire_format 7 (List.replicate 12 1) [42] [9, 9]
    (by decide) (by decide)

/-- Unfolding equation of the receive loop. -/
theorem receiveLoop_eq (key : Nat) (stream : List Nat) :
    receiveLoop key stream =
      match readMessage stream with
      | none => ([], .PeerDisconnected)
      | some (frame, rest) =>
        match decrypt key frame with
        | .error _ => ([], .AuthenticationFailed)
        | .ok m =>
          (m :: (receiveLoop key rest).1, (receiveLoop key rest).2) := by
  rw [receiveLoop]
  split <;> rename_i h <;> simp only [h]

/-- C6: frames sent in sequence by one endpoint are delivered by the
receive loop as plaintexts in exactly the order sent, one at a time,
and the loop then reports the end of the stream. -/
theorem receiveLoop_delivers_in_order (key : Nat)
    (pairs : List (List Nat × List Nat))
    (h : ∀ p ∈ pairs, p.1.length = 12 ∧ p.2.length + 28 < 4294967296 ∧
      ∀ b ∈ p.2, b < 256) :
    receiveLoop key (sendAll key pairs)
      = (pairs.map Prod.snd, .PeerDisconnected) := by
  induction pairs with
  | nil =>
    rw [receiveLoop_eq]
    rfl
  | cons p ps ih =>
    obtain ⟨n, m⟩ := p
    obtain ⟨h1, h2, h3⟩ := h (n, m) (List.mem_cons_self _ _)
    have h1' : n.length = 12 := h1
    have h2' : m.length + 28 < 4294967296 := h2
    have h3' : ∀ b ∈ m, b < 256 := h3
    have hrest : ∀ q ∈ ps, q.1.length = 12 ∧ q.2.length + 28 < 4294967296 ∧
        ∀ b ∈ q.2, b < 256 :=
      fun q hq => h q (List.mem_cons_of_mem _ hq)
    rw [show sendAll key ((n, m) :: ps)
        = encodeMessage (encrypt key n m) ++ sendAll key ps from rfl]
    rw [receiveLoop_eq]
    rw [readMessage_encodeMessage (encrypt key n m) (sendAll key ps)
      (by rw [encrypt_length key n m h1']; omega)]
    simp only [decrypt_encrypt key n m h1' h3']
    rw [ih hrest]
    rfl

/-- Witness for C6: two concrete messages arrive in order and the loop
reports the disconnect. -/
theorem receiveLoop_delivers_in_order_witness :
    receiveLoop 5 (sendAll 5
        [(List.replicate 12 2, [10, 20]), (List.replicate 12 3, [30])])
      = ([[10, 20], [30]], .PeerDisconnected) :=
  receiveLoop_delivers_in_order 5
    [(List.replicate 12 2, [10, 20]), (List.replicate 12 3, [30])]
    (by decide)

/-- C7: every exit path of the receive loop reports a classified
reason: end-of-stream or a failed read exits with `PeerDisconnected`,
an AEAD failure exits distinctly with `AuthenticationFailed`, every
run ends in one of those two reported reasons, and the two reasons
are distinct. -/
theorem receiveLoop_exits_classified (key : Nat) :
    (∀ stream, readMessage stream = none →
      receiveLoop key stream = ([], .PeerDisconnected)) ∧
    (∀ stream frame rest e, readMessage stream = some (frame, rest) →
      decrypt key frame = .error e →
      receiveLoop key stream = ([], .AuthenticationFailed)) ∧
    (∀ stream, (receiveLoop key stream).2 = .PeerDisconnected ∨
      (receiveLoop key stream).2 = .AuthenticationFailed) ∧
    ExitReason.PeerDisconnected ≠ ExitReason.AuthenticationFailed := by
  refine ⟨?_, ?_, ?_, by decide⟩
  · intro stream hr
    rw [receiveLoop_eq, hr]
  · intro stream frame rest e hr hd
    rw [receiveLoop_eq, hr]
    simp only [hd]
  · intro stream
    cases hr : (receiveLoop key stream).2 with
    | PeerDisconnected => exact Or.inl rfl
    | AuthenticationFailed => exact Or.inr rfl

/-- Witness for C7: the empty stream exits with `PeerDisconnected`; a
stream framing one all-zero frame (whose tag cannot verify) exits with
`AuthenticationFailed`. -/
theorem receiveLoop_exits_classified_witness :
    receiveLoop 1 [] = ([], .PeerDisconnected) ∧
    receiveLoop 1 (encodeMessage (List.replicate 28 0))
      = ([], .AuthenticationFailed) :=
  ⟨(receiveLoop_exits_classified 1).1 [] rfl,
   (receiveLoop_exits_classified 1).2.1
     (encodeMessage (List.replicate 28 0)) (List.replicate 28 0) []
     .AuthenticationFailed (by rfl) (by rfl)⟩

end Chat
